import Mathlib

/-!
Verification development for the spated/delphi event-discretization engine.

The Python sources embedded here are
  * src/delphi/time_discretization_utils.py  (apply_time_frequency, calculate_sazonality)
  * src/spated/data_agg.py                   (class DataAggregator)

Modelling conventions:
  * timestamps are modelled by their calendar components as read by the code
    (pandas .dt.year / .dt.month accessors) together with integral epoch
    seconds; 1970-01-01 00:00:00 is second 0 and is a Thursday (weekday 3,
    Monday = 0, the python datetime.weekday convention);
  * python floor division `//` and modulo `%` on integers are Int.fdiv and
    Int.fmod (remainder takes the sign of the divisor, as in python);
  * pandas/geopandas/shapely/h3 geometric primitives are collaborators
    (spec paragraph 6); they appear as fields of `GeoOps`, an abstract record of
    total functions, never as concrete geometry;
  * python exceptions over a mutable `self` are modelled by
    `Except (PyErr × AggState) AggState`: an error carries the state of the
    aggregator object at the moment the exception propagates, so partial
    mutation is observable.
-/

/-- The error outcomes of the embedded code.  `valueMsg`/`attrMsg` are the
explicitly written `raise ValueError(...)` / `raise AttributeError(...)`
statements with their message; `noneAttr` is an incidental
`AttributeError: 'NoneType' object has no attribute ...`; `noneSubscript` is
`TypeError: 'NoneType' object is not subscriptable`; `typeErr` is an
incidental TypeError inside a collaborator call on a `None` parameter;
`unboundLocal` is the `UnboundLocalError` for the unbound `w` in
`apply_time_frequency`; `astypeNaN` is the `ValueError` raised by
`.astype(int)` on a NaN-carrying series in `calculate_sazonality`. -/
inductive PyErr
  | valueMsg (m : String)
  | attrMsg (m : String)
  | noneAttr
  | noneSubscript
  | typeErr
  | unboundLocal
  | astypeNaN
  deriving DecidableEq

/-- Which errors correspond to an explicit `raise` statement of
DataAggregator (the documented ValidationError / PreconditionError raises of
spec paragraph 7). -/
def PyErr.isExplicitRaise : PyErr → Bool
  | .valueMsg _ => true
  | .attrMsg _ => true
  | _ => false

/-- A pandas datetime as read by the source: the `.dt.year` and `.dt.month`
accessors plus whole epoch seconds (sub-second precision is irrelevant to
every claim).  Consistency of the calendar fields with `sec` is the pandas
collaborator's contract and is assumed where a claim needs it. -/
structure Timestamp where
  year : ℤ
  month : ℤ
  sec : ℤ
  deriving DecidableEq

/-- `ts.dt.year.min()` over the series (0 on an empty series: the branches
producing output on an empty series produce an empty output regardless). -/
def yearMin (ts : List Timestamp) : ℤ :=
  match ts with
  | [] => 0
  | t :: r => r.foldl (fun a x => min a x.year) t.year

/-- `ts.min()` (as epoch seconds) over the series. -/
def secMin (ts : List Timestamp) : ℤ :=
  match ts with
  | [] => 0
  | t :: r => r.foldl (fun a x => min a x.sec) t.sec

/-- `dt.replace(hour=0, minute=0, second=0)`: floor epoch seconds to the
containing day. -/
def dayFloor (s : ℤ) : ℤ := 86400 * s.fdiv 86400

/-- `dt.replace(second=0)`: floor epoch seconds to the containing minute. -/
def minuteFloor (s : ℤ) : ℤ := 60 * s.fdiv 60

/-- `datetime.weekday()`: Monday = 0.  Epoch day 0 (1970-01-01) is a
Thursday, weekday 3. -/
def weekdayOf (s : ℤ) : ℤ := (s.fdiv 86400 + 3).fmod 7

/-- The base of the week branch of `apply_time_frequency`:
`min_day = ts.min().replace(hour=0,minute=0,second=0)` followed by
`min_day = min_day - timedelta(days=min_day.weekday())`. -/
def weekBase (ts : List Timestamp) : ℤ :=
  dayFloor (secMin ts) - 86400 * weekdayOf (dayFloor (secMin ts))

/-- `apply_time_frequency(ts, window, window_size)` from
src/delphi/time_discretization_utils.py lines 45-78.  Each recognized unit
binds the local `w`; the final statement returns `w // window_size`.  For an
unrecognized unit `w` is never bound and the return statement raises
`UnboundLocalError`. -/
def applyTimeFrequency (ts : List Timestamp) (window : String) (windowSize : ℤ) :
    Except PyErr (List ℤ) :=
  let w? : Option (List ℤ) :=
    if window = "Y" then
      some (ts.map fun t => t.year - yearMin ts)
    else if window = "M" then
      some (ts.map fun t => 12 * (t.year - yearMin ts) + t.month - 1)
    else if window = "W" then
      some (ts.map fun t => (t.sec - weekBase ts).fdiv (7 * 24 * 60 * 60))
    else if window = "D" then
      some (ts.map fun t => (t.sec - dayFloor (secMin ts)).fdiv (24 * 60 * 60))
    else if window = "H" then
      some (ts.map fun t => (t.sec - dayFloor (secMin ts)).fdiv (60 * 60))
    else if window = "m" then
      some (ts.map fun t => (t.sec - dayFloor (secMin ts)).fdiv 60)
    else if window = "s" then
      some (ts.map fun t => t.sec - minuteFloor (secMin ts))
    else none
  match w? with
  | some w => .ok (w.map fun x => x.fdiv windowSize)
  | none => .error .unboundLocal

/-- The `window` argument of `calculate_sazonality`: a python `int`
(uniform mode) or a python `list` of ints (variable mode). -/
inductive Window
  | uni (w : ℤ)
  | var (ws : List ℤ)
  deriving DecidableEq

/-- `np.cumsum` on a list of ints. -/
def cumsum : List ℤ → List ℤ
  | [] => []
  | w :: ws => w :: (cumsum ws).map (fun c => w + c)

/-- Index of the first element satisfying `p` (a structural variant of
`List.findIdx?`, convenient for induction). -/
def findIdxO {α : Type} (p : α → Bool) : List α → Option ℕ
  | [] => none
  | a :: l => if p a then some 0 else (findIdxO p l).map (· + 1)

/-- `mapM` over `Option` by structural recursion: `some` exactly when every
element maps to `some`. -/
def mapMO {α β : Type} (f : α → Option β) : List α → Option (List β)
  | [] => some []
  | a :: l =>
    match f a, mapMO f l with
    | some b, some bs => some (b :: bs)
    | _, _ => none

/-- The variable-mode assignment loop of `calculate_sazonality` lines
144-149: for residual `r`, the assigned index is the first `i` with
`r < cumsum(window)[i]` (a cell already assigned is masked by
`sazon_idx.isna()` and never reconsidered); an event matching no threshold
keeps its NaN. -/
def variableIdx (cs : List ℤ) (r : ℤ) : Option ℕ :=
  findIdxO (fun c => decide (r < c)) cs

/-- `calculate_sazonality(ts, sazonality_type, window, frequency)` from
src/delphi/time_discretization_utils.py lines 81-151.
Uniform mode: `(unitary // window) % (frequency // window)`.
Variable mode: `sazon_n = unitary % frequency`, then the first-threshold
scan; `.astype(int)` raises when any entry is still NaN.
(The pandas behaviour of `% 0` on a zero `frequency` is dtype-dependent and
not relied on by any theorem below.) -/
def calculateSazonality (ts : List Timestamp) (sazType : String) (window : Window)
    (frequency : ℤ) : Except PyErr (List ℤ) :=
  match applyTimeFrequency ts sazType 1 with
  | .error e => .error e
  | .ok unitary =>
    match window with
    | .uni w => .ok (unitary.map fun u => (u.fdiv w).fmod (frequency.fdiv w))
    | .var ws =>
      match mapMO (fun u => variableIdx (cumsum ws) (u.fmod frequency)) unitary with
      | some idxs => .ok (idxs.map Int.ofNat)
      | none => .error .astypeNaN

/-- The parameter validation of `DataAggregator.add_time_discretization`
lines 244-248.  `some m` means `raise ValueError(m)`.  Uniform mode:
`frequency % window != 0`.  Variable mode: the chained comparison
`sum(window) != frequency != 0`, i.e.
`sum(window) != frequency and frequency != 0`. -/
def addTimeValidationErr (window : Window) (frequency : ℤ) : Option String :=
  match window with
  | .uni w =>
    if frequency.fmod w ≠ 0 then
      some "Parameter frequency must be a multiple of window."
    else none
  | .var ws =>
    if ws.sum ≠ frequency ∧ frequency ≠ 0 then
      some "Parameter frequency must be equal sum of window."
    else none

/-- A row of the raw tessellation table returned by the H3 collaborator
`generate_H3_discretization` (spec paragraph 6: raw id, polygon geometry, list
of raw neighbor ids).  `Geom` is the abstract geometry type. -/
structure RawCell (Geom : Type) where
  id : ℕ
  geom : Geom
  neighbors : List ℕ
  deriving DecidableEq

/-- A row of a produced discretization table: compact id, geometry,
neighbor-id list, and the `center_lat`/`center_lon` pair once filled. -/
structure Cell (Geom : Type) where
  id : ℕ
  geom : Geom
  neighbors : List ℕ
  center : Option (ℤ × ℤ)
  deriving DecidableEq

/-- The geometry / tessellation collaborators of spec paragraph 6, as total
abstract functions.  CRS reprojection is elided (all claims are
CRS-independent). -/
structure GeoOps (Geom : Type) where
  pointsFromXY : ℤ → ℤ → Geom
  totalBoundsRect : List Geom → Geom
  bufferedHull : List Geom → Geom
  h3gen : Geom → ℕ → List (RawCell Geom)
  intersects : Geom → Geom → Bool
  clip : Geom → Geom → Geom
  rectCellGeom : Geom → ℕ → ℕ → ℕ → Geom
  rectNeighbors : ℕ → ℕ → ℕ → List ℕ
  disjoint : Geom → Geom → Bool
  within : Geom → Geom → Bool
  nearestIds : Geom → List (Cell Geom) → List ℕ
  centroid : Geom → ℤ × ℤ
  regrJoin : List (Cell Geom) → List String → List (Cell Geom)

/-- `enumer k l` pairs each element of `l` with its position counted from
`k` (the `reset_index` / `enumerate` of the source, with a free start for
clean induction). -/
def enumer {α : Type} : ℕ → List α → List (ℕ × α)
  | _, [] => []
  | k, a :: l => (k, a) :: enumer (k + 1) l

/-- Position of the first occurrence of `n` in `l`: the value
`corr_index_dict.get(n)` where the dict maps each table `id` to its
post-reset positional index. -/
def idxOf (l : List ℕ) (n : ℕ) : Option ℕ := findIdxO (fun m => m == n) l

/-- The neighbor rewrite loop of `add_geo_discretization` lines 334-339:
`if corr_index_dict.get(n): new_list.append(corr_index_dict[n])`.
The lookup is used as a python truth value, so a missing raw id (`None`)
AND a raw id whose new index is `0` are both skipped. -/
def remapNeighbors (ids : List ℕ) (nlist : List ℕ) : List ℕ :=
  nlist.filterMap fun n =>
    match idxOf ids n with
    | none => none
    | some 0 => none
    | some (k + 1) => some (k + 1)

/-- Insertion step used to model the row order produced by
`.dissolve(by='id')` (pandas groupby sorts its keys ascending). -/
def insertById {Geom : Type} (c : RawCell Geom) :
    List (RawCell Geom) → List (RawCell Geom)
  | [] => [c]
  | x :: xs => if c.id ≤ x.id then c :: x :: xs else x :: insertById c xs

/-- Sort raw cells ascending by raw id (the row order of
`overlay(...).dissolve(by='id').reset_index()`, preserved by the
`how='right'` merge of line 322). -/
def sortById {Geom : Type} (l : List (RawCell Geom)) : List (RawCell Geom) :=
  l.foldr insertById []

/-- The surviving rows of the hexagonal pipeline: raw cells whose geometry
meets the border (those are exactly the rows `gpd.overlay(...,
how='intersection')` emits), one row per id after the dissolve, ordered by
raw id. -/
def hexSurvivors {Geom : Type} (ops : GeoOps Geom) (border : Geom)
    (raw : List (RawCell Geom)) : List (RawCell Geom) :=
  sortById (raw.filter fun c => ops.intersects c.geom border)

/-- The hexagonal strategy of `add_geo_discretization` lines 311-343 after
the tessellation call: clip to the border, drop empty rows, remap each
neighbor list through the raw-to-new dict, drop the raw `id` column, and
`reset_index` the survivors into a contiguous 0-based `id`. -/
def hexPipeline {Geom : Type} (ops : GeoOps Geom) (border : Geom)
    (raw : List (RawCell Geom)) : List (Cell Geom) :=
  let surv := hexSurvivors ops border raw
  let ids := surv.map RawCell.id
  (enumer 0 surv).map fun p =>
    { id := p.1
      geom := ops.clip p.2.geom border
      neighbors := remapNeighbors ids p.2.neighbors
      center := none }

/-- Modelled from the spec: `rectangle_discretization` lives in
src/spated/squares.py, which is absent from src/.  Spec paragraph 4.2: a
regular `nx × ny` grid clipped to the bounding box, "ids assigned
row-major" (hence `0..nx*ny-1` in row order), adjacency being the grid
convention of the generator (kept abstract through `ops`). -/
def rectangle_discretization {Geom : Type} (ops : GeoOps Geom) (border : Geom)
    (nx ny : ℕ) : List (Cell Geom) :=
  (List.range (nx * ny)).map fun i =>
    { id := i
      geom := ops.rectCellGeom border nx ny i
      neighbors := ops.rectNeighbors nx ny i
      center := none }

/-- The CustomPolygon strategy, lines 345-370: sequential ids
`range(len(custom_data))` and neighbors by pairwise non-disjointness,
excluding the row's own id. -/
def customTable {Geom : Type} (ops : GeoOps Geom) (polys : List Geom) :
    List (Cell Geom) :=
  let tbl := enumer 0 polys
  tbl.map fun p =>
    { id := p.1
      geom := p.2
      neighbors :=
        ((tbl.filter fun q => !(ops.disjoint q.2 p.2)).map Prod.fst).filter
          fun n => n ≠ p.1
      center := none }

/-- The GraphNode table, lines 372-387: the caller's nodes with ids
`range(len(custom_data))`.  The source table has no neighbors column;
the field is left empty. -/
def nodeTable {Geom : Type} (nodes : List Geom) : List (Cell Geom) :=
  (enumer 0 nodes).map fun p => { id := p.1, geom := p.2, neighbors := [], center := none }

/-- `pd.Series.unique()` order: first occurrence wins. -/
def firstOccUnique (l : List ℕ) : List ℕ :=
  l.foldl (fun acc n => if n ∈ acc then acc else acc ++ [n]) []

/-- One event row of `self.events_data`: the `geometry` cell (possibly an
absent geometry) and the parsed `ts` value. -/
structure EvRow (Geom : Type) where
  geom : Option Geom
  ts : Timestamp
  deriving DecidableEq

/-- `self.events_data`: the rows, the accumulated `tdiscr_<n>` columns
(name and values, in creation order) and the `gdiscr` column once
assigned (one possibly-null cell id per row). -/
structure EventsTable (Geom : Type) where
  rows : List (EvRow Geom)
  tcols : List (String × List ℤ)
  gdiscr : Option (List (Option ℕ))
  deriving DecidableEq

/-- The caller's plain `pandas.DataFrame` handed to `add_events_data`:
latitude / longitude columns, the timestamp column, and the `geometry`
column when one exists.  The object is aliased by the caller, so the
embedding returns its post-call value explicitly. -/
structure RawFrame (Geom : Type) where
  lat : List ℤ
  lon : List ℤ
  tsVals : List Timestamp
  geometryCol : Option (List Geom)
  deriving DecidableEq

/-- An external covariate layer handed to `add_geo_variable`; only its
non-geometry column names are observable to the claims. -/
structure RegrTable where
  feats : List String
  deriving DecidableEq

/-- The session state owned by a `DataAggregator` object.  `crs` and the
constant `geo_index = 'gdiscr'` are fixed strings and elided. -/
structure AggState (Geom : Type) where
  maxBorders : Option Geom
  eventsData : Option (EventsTable Geom)
  geoDiscretization : Option (List (Cell Geom))
  timeIndexes : List String
  eventsFeatures : List String
  geoFeatures : List String
  deriving DecidableEq

/-- `DataAggregator.__init__`: every table is `None`, every list empty.
In particular `self.events_data` EXISTS (set to `None`), so
`hasattr(self, "events_data")` holds in every reachable state. -/
def initState (Geom : Type) : AggState Geom :=
  { maxBorders := none
    eventsData := none
    geoDiscretization := none
    timeIndexes := []
    eventsFeatures := []
    geoFeatures := [] }

/-- `hasattr(self, "events_data")` for a constructed `DataAggregator`:
always true, because `__init__` unconditionally binds the attribute. -/
def hasattrEventsData {Geom : Type} (_ : AggState Geom) : Bool := true

def informEventsMsg : String := "Please inform events data using add_events_data method."
def informDataMsg : String := "Please inform data or method parameter."
def bordersMsg : String := "Please inform geographical limits using add_max_borders method."
def customMsg : String := "Please inform custom_data to be used as geographical discretization."
def graphMsg : String := "Please inform custom_data to be used as grpah discretization."
def invalidMsg (discrType : String) : String :=
  "Invalid discr_type value " ++ discrType ++ "."

/-- `DataAggregator.add_max_borders` (lines 35-105).  The `data` branch
stores the borders (CRS handling elided).  The `method` branches guard on
`not(hasattr(self, "events_data"))` — which never fires — and then touch
`self.events_data.geometry`, an `AttributeError` on `None` when no events
were set; otherwise they store the collaborator-built rectangle / buffered
convex hull.  With neither argument, the final `raise ValueError`. -/
def addMaxBorders {Geom : Type} (ops : GeoOps Geom) (st : AggState Geom)
    (data : Option Geom) (method : Option String) :
    Except (PyErr × AggState Geom) (AggState Geom) :=
  match data with
  | some d => .ok { st with maxBorders := some d }
  | none =>
    if method = some "rectangle" then
      if hasattrEventsData st then
        match st.eventsData with
        | none => .error (.noneAttr, st)
        | some ev =>
          .ok { st with maxBorders := some (ops.totalBoundsRect (ev.rows.filterMap EvRow.geom)) }
      else .error (.attrMsg informEventsMsg, st)
    else if method = some "convex" then
      if hasattrEventsData st then
        match st.eventsData with
        | none => .error (.noneAttr, st)
        | some ev =>
          .ok { st with maxBorders := some (ops.bufferedHull (ev.rows.filterMap EvRow.geom)) }
      else .error (.attrMsg informEventsMsg, st)
    else .error (.valueMsg informDataMsg, st)

/-- Insertion step for the `sort_values('ts', ascending=True)` of
`add_events_data`. -/
def insertTs {Geom : Type} (r : EvRow Geom) : List (EvRow Geom) → List (EvRow Geom)
  | [] => [r]
  | x :: xs => if r.ts.sec ≤ x.ts.sec then r :: x :: xs else x :: insertTs r xs

/-- Sort event rows ascending by timestamp. -/
def sortByTs {Geom : Type} (l : List (EvRow Geom)) : List (EvRow Geom) :=
  l.foldr insertTs []

/-- `DataAggregator.add_events_data` (lines 107-178) for the plain
`pandas.DataFrame` input (the branch of line 149).  The FIRST statement
mutates the caller's own frame: `events_data['geometry'] =
gpd.points_from_xy(events_data[lon_col], events_data[lat_col])`.  The
session then keeps its own sorted, column-filtered copy.  The function
returns the caller-visible frame together with the new session state. -/
def addEventsData {Geom : Type} (ops : GeoOps Geom) (st : AggState Geom)
    (frame : RawFrame Geom) (featureCols : List String) :
    RawFrame Geom × AggState Geom :=
  let frame1 :=
    { frame with geometryCol := some (List.zipWith ops.pointsFromXY frame.lon frame.lat) }
  let rows :=
    sortByTs (((frame1.geometryCol.getD []).zip frame.tsVals).map fun p =>
      { geom := some p.1, ts := p.2 })
  (frame1,
    { st with
        eventsData := some { rows := rows, tcols := [], gdiscr := none }
        eventsFeatures := st.eventsFeatures ++ featureCols })

/-- `tdiscr_<n>` column names. -/
def tname (i : ℕ) : String := "tdiscr_" ++ toString i

/-- The fresh-name loop of `add_time_discretization` lines 226-232:
the smallest `i ≥ 1` with `tdiscr_i` not yet among the time columns. -/
def freshT (used : List String) : String :=
  match (List.range (used.length + 1)).find? (fun i => !(used.contains (tname (i + 1)))) with
  | some i => tname (i + 1)
  | none => tname (used.length + 1)

/-- The `seasonality_type` argument of `add_time_discretization`: a unit
string, or a custom per-event assignment table.  The custom table is
consumed by `apply_custom_time_events` (absent from src/); per spec
paragraph 4.1 it is a total mapping with default bin 0, modelled as a
function from the event timestamps to the produced column. -/
inductive TimeSpec
  | unitStr (u : String)
  | customDf (f : List Timestamp → List ℤ)

/-- `DataAggregator.add_time_discretization` (lines 180-257).  Order of
effects is the source's: the events precondition check, the fresh column
name, then EITHER the custom branch (append to `time_indexes`, then the
custom assignment) OR the validation guard (lines 244-248) followed by the
append to `time_indexes` (line 251) and only then `calculate_sazonality`
(line 252), whose failures therefore leave the appended name behind. -/
def addTimeDiscretization {Geom : Type} (st : AggState Geom) (sazType : TimeSpec)
    (window : Window) (frequency : ℤ) :
    Except (PyErr × AggState Geom) (AggState Geom) :=
  match st.eventsData with
  | none => .error (.attrMsg informEventsMsg, st)
  | some ev =>
    let tcol := freshT (ev.tcols.map Prod.fst)
    match sazType with
    | .customDf f =>
      let st1 := { st with timeIndexes := st.timeIndexes ++ [tcol] }
      .ok { st1 with
              eventsData := some
                { ev with tcols := ev.tcols ++ [(tcol, f (ev.rows.map EvRow.ts))] } }
    | .unitStr u =>
      match addTimeValidationErr window frequency with
      | some m => .error (.valueMsg m, st)
      | none =>
        let st1 := { st with timeIndexes := st.timeIndexes ++ [tcol] }
        match calculateSazonality (ev.rows.map EvRow.ts) u window frequency with
        | .error e => .error (e, st1)
        | .ok col =>
          .ok { st1 with
                  eventsData := some { ev with tcols := ev.tcols ++ [(tcol, col)] } }

/-- The polygon-containment join of lines 428-434: each event gets the id
of the containing cell (the collaborator's tie-break for boundary points is
its own; modelled as the first table row containing the point), null when
the geometry is absent or in no cell.  The previous `gdiscr` column is
dropped first, so the assignment replaces wholesale. -/
def sjoinWithin {Geom : Type} (ops : GeoOps Geom) (geo : List (Cell Geom))
    (ev : EventsTable Geom) : EventsTable Geom :=
  { ev with
      gdiscr := some (ev.rows.map fun r =>
        match r.geom with
        | none => none
        | some p => (geo.find? fun c => ops.within p c.geom).map Cell.id) }

/-- The common tail of the R/H/C strategies (lines 422-434): fill
`center_lat`/`center_lon` from the projected centroids, store the table,
then spatially join the events.  When `self.events_data` is `None` the
join raises on `None.drop`, with the geo table already replaced. -/
def afterTable {Geom : Type} (ops : GeoOps Geom) (st : AggState Geom)
    (geo : List (Cell Geom)) : Except (PyErr × AggState Geom) (AggState Geom) :=
  let geo2 := geo.map fun c => { c with center := some (ops.centroid c.geom) }
  let st1 := { st with geoDiscretization := some geo2 }
  match st.eventsData with
  | none => .error (.noneAttr, st1)
  | some ev => .ok { st1 with eventsData := some (sjoinWithin ops geo2 ev) }

/-- The tie-lists of the GraphNode strategy's `sjoin_nearest` (line 390):
for each event row in order, the list of matched node ids (empty for an
absent geometry or an empty node table, modelling the left join's NaN). -/
def gaMatches {Geom : Type} (ops : GeoOps Geom) (nodes : List Geom)
    (ev : EventsTable Geom) : List (List ℕ) :=
  ev.rows.map fun r =>
    match r.geom with
    | none => []
    | some p => ops.nearestIds p (nodeTable nodes)

/-- The `node_id` column of the joined table in row order (non-null
entries), from which `node_idx_dict` is built. -/
def gaFlat {Geom : Type} (ops : GeoOps Geom) (nodes : List Geom)
    (ev : EventsTable Geom) : List ℕ :=
  (gaMatches ops nodes ev).flatten

/-- `self.events_data["node_id"].dropna().unique()`: the used node ids in
first-occurrence order; `node_idx_dict` maps the `j`-th entry to `j`. -/
def gaUsed {Geom : Type} (ops : GeoOps Geom) (nodes : List Geom)
    (ev : EventsTable Geom) : List ℕ :=
  firstOccUnique (gaFlat ops nodes ev)

/-- The GraphNode event assignment, lines 389-414: nearest-node join,
compact renumbering through `node_idx_dict`, duplicate drop keeping the
first row per original event index, then nulling `gdiscr` for events whose
(present) geometry is not within the border polygon. -/
def graphAssign {Geom : Type} (ops : GeoOps Geom) (border : Geom)
    (nodes : List Geom) (ev : EventsTable Geom) : EventsTable Geom :=
  let used := gaUsed ops nodes ev
  let pre : List (Option ℕ) :=
    (gaMatches ops nodes ev).map fun ms => ms.head?.bind fun nid => idxOf used nid
  let final :=
    (ev.rows.zip pre).map fun p =>
      match p.1.geom with
      | some q => if ops.within q border then p.2 else none
      | none => p.2
  { ev with gdiscr := some final }

/-- `DataAggregator.add_geo_discretization` (lines 259-434).  Mutation
order follows the source: the borders guard; per-branch parameter guards
(the rectangle/H3 generators fail on a missing parameter BEFORE their
result is assigned); the branch table assignment; then for R/H/C the
centroid fill and the events join, and for G the nearest-node pipeline
(whose `sjoin_nearest` needs `self.events_data`, raising on `None` with
the node table already stored).  Note line 313 computes a convex hull into
the local `full_area` but line 314 passes `self.max_borders` to the
generator; `full_area` is dead and not modelled. -/
def addGeoDiscretization {Geom : Type} (ops : GeoOps Geom) (st : AggState Geom)
    (discrType : String) (hexParam rectX rectY : Option ℕ)
    (customData : Option (List Geom)) :
    Except (PyErr × AggState Geom) (AggState Geom) :=
  match st.maxBorders with
  | none => .error (.valueMsg bordersMsg, st)
  | some border =>
    if discrType = "R" then
      match rectX, rectY with
      | some nx, some ny => afterTable ops st (rectangle_discretization ops border nx ny)
      | _, _ => .error (.typeErr, st)
    else if discrType = "H" then
      match hexParam with
      | some res => afterTable ops st (hexPipeline ops border (ops.h3gen border res))
      | none => .error (.typeErr, st)
    else if discrType = "C" then
      match customData with
      | none => .error (.valueMsg customMsg, st)
      | some polys => afterTable ops st (customTable ops polys)
    else if discrType = "G" then
      match customData with
      | none => .error (.valueMsg graphMsg, st)
      | some nodes =>
        let st1 := { st with geoDiscretization := some (nodeTable nodes) }
        match st.eventsData with
        | none => .error (.noneAttr, st1)
        | some ev => .ok { st1 with eventsData := some (graphAssign ops border nodes ev) }
    else .error (.valueMsg (invalidMsg discrType), st)

/-- `DataAggregator.add_geo_variable` (lines 436-478).  The feature names
are appended to `self.geo_features` (line 457) BEFORE the geo table is
touched, so a missing discretization surfaces as a TypeError on
`None[...]` with `geo_features` already grown.  The area-weighted merge
itself is the `addRegressorUniformDistribution` collaborator (absent from
src/), kept abstract. -/
def addGeoVariable {Geom : Type} (ops : GeoOps Geom) (st : AggState Geom)
    (data : RegrTable) : Except (PyErr × AggState Geom) (AggState Geom) :=
  let st1 := { st with geoFeatures := st.geoFeatures ++ data.feats }
  match st.geoDiscretization with
  | none => .error (.noneSubscript, st1)
  | some geo => .ok { st1 with geoDiscretization := some (ops.regrJoin geo data.feats) }

/- ------------------------------------------------------------------ -/
/- Helper lemmas                                                      -/
/- ------------------------------------------------------------------ -/

lemma findIdxO_lt_length {α : Type} (p : α → Bool) :
    ∀ {l : List α} {i : ℕ}, findIdxO p l = some i → i < l.length := by
  intro l
  induction l with
  | nil => intro i h; simp [findIdxO] at h
  | cons a t ih =>
    intro i h
    simp only [findIdxO] at h
    by_cases hp : p a
    · simp [hp] at h; simp only [List.length_cons]; omega
    · simp [hp] at h
      obtain ⟨j, hj, rfl⟩ := h
      have := ih hj
      simp only [List.length_cons]
      omega

lemma mem_of_mapMO {α β : Type} (f : α → Option β) :
    ∀ {l : List α} {out : List β}, mapMO f l = some out →
      ∀ b ∈ out, ∃ a ∈ l, f a = some b := by
  intro l
  induction l with
  | nil => intro out h b hb; simp [mapMO] at h; subst h; simp at hb
  | cons a t ih =>
    intro out h b hb
    simp only [mapMO] at h
    cases hfa : f a with
    | none => rw [hfa] at h; simp at h
    | some b0 =>
      rw [hfa] at h
      cases hrec : mapMO f t with
      | none => rw [hrec] at h; simp at h
      | some bs =>
        rw [hrec] at h
        simp at h
        subst h
        rcases List.mem_cons.mp hb with rfl | hb'
        · exact ⟨a, List.mem_cons_self a t, hfa⟩
        · obtain ⟨a', ha', hfa'⟩ := ih hrec b hb'
          exact ⟨a', List.mem_cons_of_mem a ha', hfa'⟩

lemma cumsum_length (ws : List ℤ) : (cumsum ws).length = ws.length := by
  induction ws with
  | nil => rfl
  | cons w t ih => simp [cumsum, ih]

lemma enumer_get? {α : Type} :
    ∀ (l : List α) (k i : ℕ),
      (enumer k l).get? i = (l.get? i).map (fun a => (k + i, a)) := by
  intro l
  induction l with
  | nil => intro k i; simp [enumer]
  | cons a t ih =>
    intro k i
    cases i with
    | zero => simp [enumer]
    | succ j =>
      simp only [enumer, List.get?_cons_succ, ih (k + 1) j]
      cases t.get? j with
      | none => simp
      | some x => simp; omega

lemma enumer_map_fst {α : Type} :
    ∀ (l : List α) (k : ℕ), (enumer k l).map Prod.fst = List.range' k l.length := by
  intro l
  induction l with
  | nil => intro k; rfl
  | cons a t ih => intro k; simp [enumer, List.range', ih]

lemma enumer_length {α : Type} :
    ∀ (l : List α) (k : ℕ), (enumer k l).length = l.length := by
  intro l
  induction l with
  | nil => intro k; rfl
  | cons a t ih => intro k; simp [enumer, ih]

lemma get?_zip {α β : Type} :
    ∀ (l₁ : List α) (l₂ : List β) (i : ℕ),
      (l₁.zip l₂).get? i =
        match l₁.get? i, l₂.get? i with
        | some a, some b => some (a, b)
        | _, _ => none := by
  intro l₁
  induction l₁ with
  | nil => intro l₂ i; simp [List.zip]
  | cons a t ih =>
    intro l₂ i
    cases l₂ with
    | nil => cases i <;> simp [List.zip]
    | cons b s =>
      cases i with
      | zero => simp
      | succ j => simpa using ih s j

lemma mem_remapNeighbors {ids nlist : List ℕ} {j : ℕ} :
    j ∈ remapNeighbors ids nlist ↔
      ∃ n ∈ nlist, idxOf ids n = some j ∧ j ≠ 0 := by
  unfold remapNeighbors
  rw [List.mem_filterMap]
  constructor
  · rintro ⟨n, hn, hmatch⟩
    refine ⟨n, hn, ?_⟩
    cases hidx : idxOf ids n with
    | none => rw [hidx] at hmatch; simp at hmatch
    | some k =>
      rw [hidx] at hmatch
      cases k with
      | zero => simp at hmatch
      | succ m => simp at hmatch; subst hmatch; exact ⟨rfl, Nat.succ_ne_zero m⟩
  · rintro ⟨n, hn, hidx, hj⟩
    refine ⟨n, hn, ?_⟩
    rw [hidx]
    cases j with
    | zero => exact absurd rfl hj
    | succ m => rfl

/- ------------------------------------------------------------------ -/
/- Claims about the time discretization utilities                     -/
/- ------------------------------------------------------------------ -/

/-- C2: the variable-mode validation of `add_time_discretization` is the
chained comparison `sum(window) != frequency != 0`, which is silently
false whenever `frequency == 0`.  At `window = [1, 2]`, `frequency = 0`
the sums differ (3 ≠ 0) yet no ValidationError is raised, contradicting
the claim (and the raise's own message). -/
theorem C2_guard_misses_zero_frequency :
    addTimeValidationErr (Window.var [1, 2]) 0 = none ∧ ([1, 2] : List ℤ).sum ≠ 0 := by
  exact ⟨by decide, by decide⟩

/-- The range bound the spec asserts for seasonality values:
`frequency // window` in uniform mode, `len(window)` in variable mode. -/
def modeBound (window : Window) (frequency : ℤ) : ℤ :=
  match window with
  | .uni w => frequency.fdiv w
  | .var ws => (ws.length : ℤ)

/-- C6: whenever `calculate_sazonality` returns (its input is accepted),
every produced value is a non-negative integer below `frequency // window`
in uniform mode (for a positive window dividing a positive frequency) and
below `len(window)` in variable mode. -/
theorem C6_sazonality_range (ts : List Timestamp) (u : String) (window : Window)
    (frequency : ℤ) (out : List ℤ)
    (hok : calculateSazonality ts u window frequency = .ok out)
    (hmode : ∀ w, window = Window.uni w → 0 < w ∧ w ∣ frequency ∧ 0 < frequency) :
    ∀ v ∈ out, 0 ≤ v ∧ v < modeBound window frequency := by
  cases window with
  | uni w =>
    intro v hv
    obtain ⟨hw, hdvd, hf⟩ := hmode w rfl
    unfold calculateSazonality at hok
    cases happ : applyTimeFrequency ts u 1 with
    | error e => rw [happ] at hok; exact absurd hok (by simp)
    | ok unitary =>
      rw [happ] at hok
      simp only [Except.ok.injEq] at hok
      subst hok
      obtain ⟨x, _, rfl⟩ := List.mem_map.mp hv
      obtain ⟨k, hk⟩ := hdvd
      have hwne : w ≠ 0 := Int.ne_of_gt hw
      have hMk : frequency.fdiv w = k := by rw [hk, Int.mul_fdiv_cancel_left k hwne]
      have hkpos : 0 < k := by
        rcases mul_pos_iff.mp (hk ▸ hf) with ⟨_, h2⟩ | ⟨h1, _⟩
        · exact h2
        · exact absurd hw (not_lt.mpr (le_of_lt h1))
      have hM : 0 < frequency.fdiv w := hMk ▸ hkpos
      exact ⟨Int.fmod_nonneg' _ hM, Int.fmod_lt_of_pos _ hM⟩
  | var ws =>
    intro v hv
    unfold calculateSazonality at hok
    cases happ : applyTimeFrequency ts u 1 with
    | error e => rw [happ] at hok; exact absurd hok (by simp)
    | ok unitary =>
      rw [happ] at hok
      have hok2 : (match mapMO (fun u => variableIdx (cumsum ws) (u.fmod frequency)) unitary with
          | some idxs => Except.ok (idxs.map Int.ofNat)
          | none => (Except.error PyErr.astypeNaN : Except PyErr (List ℤ))) =
            Except.ok out := hok
      cases hmap : mapMO (fun u => variableIdx (cumsum ws) (u.fmod frequency)) unitary with
      | none => rw [hmap] at hok2; exact absurd hok2 (by simp)
      | some idxs =>
        rw [hmap] at hok2
        simp only [Except.ok.injEq] at hok2
        subst hok2
        obtain ⟨n, hn, rfl⟩ := List.mem_map.mp hv
        obtain ⟨a, _, hfa⟩ := mem_of_mapMO _ hmap n hn
        have hlt : n < (cumsum ws).length := findIdxO_lt_length _ hfa
        rw [cumsum_length] at hlt
        exact ⟨Int.ofNat_nonneg n, by simp only [modeBound]; exact Int.ofNat_lt.mpr hlt⟩

/-- C6 witness: the spec's own test vector, unit day, uniform window 1,
frequency 7, on the four 2022 dates: every value lies in `[0, 7)`. -/
theorem C6_sazonality_range_witness :
    0 ≤ (3 : ℤ) ∧ (3 : ℤ) < modeBound (Window.uni 1) 7 :=
  C6_sazonality_range
    [⟨2022, 1, 1640995200⟩, ⟨2022, 1, 1641254400⟩, ⟨2022, 1, 1641772800⟩,
      ⟨2022, 12, 1672444800⟩]
    "D" (Window.uni 1) 7 [0, 3, 2, 0] rfl
    (fun w hw => by cases hw; norm_num) 3 (by decide)

/-- The four timestamps of the spec's week test:
2022-01-01, 2022-01-04, 2022-01-10, 2022-12-31 (midnight UTC). -/
def ts7 : List Timestamp :=
  [⟨2022, 1, 1640995200⟩, ⟨2022, 1, 1641254400⟩, ⟨2022, 1, 1641772800⟩,
    ⟨2022, 12, 1672444800⟩]

/-- C7: `apply_time_frequency` with unit week, window size 1 on those four
timestamps yields `[0, 1, 2, 52]`, and the week base is the Monday
(weekday 0) at or before the minimum timestamp. -/
theorem C7_week_indexes :
    applyTimeFrequency ts7 "W" 1 = .ok [0, 1, 2, 52] ∧
    weekdayOf (weekBase ts7) = 0 ∧ weekBase ts7 ≤ secMin ts7 := by
  exact ⟨rfl, by decide, by decide⟩

/-- C10: for any unit string outside `{Y, M, W, D, H, m, s}` the local `w`
of `apply_time_frequency` is never bound and the final `return w //
window_size` raises `UnboundLocalError`; no index sequence is returned,
for any (in particular any non-empty) timestamp input. -/
theorem C10_unknown_unit (ts : List Timestamp) (u : String) (sz : ℤ)
    (hu : u ∉ ["Y", "M", "W", "D", "H", "m", "s"]) (hts : ts ≠ []) :
    applyTimeFrequency ts u sz = .error .unboundLocal := by
  simp only [List.mem_cons, List.not_mem_nil, or_false, not_or] at hu
  obtain ⟨h1, h2, h3, h4, h5, h6, h7⟩ := hu
  unfold applyTimeFrequency
  simp [h1, h2, h3, h4, h5, h6, h7]

/-- C10 witness: the unit string "X" with a singleton input. -/
theorem C10_unknown_unit_witness :
    applyTimeFrequency [⟨2022, 1, 0⟩] "X" 1 = .error .unboundLocal :=
  C10_unknown_unit [⟨2022, 1, 0⟩] "X" 1 (by decide) (by simp)

set_option linter.unusedVariables false

/- ------------------------------------------------------------------ -/
/- Concrete collaborator instances for witnesses and counterexamples  -/
/- ------------------------------------------------------------------ -/

/-- A trivial concrete instantiation of the geometry collaborators over
`Geom := ℕ`: every cell meets the border, clipping is the identity, every
point is within every polygon. -/
def ops0 : GeoOps ℕ where
  pointsFromXY := fun _ _ => 0
  totalBoundsRect := fun _ => 0
  bufferedHull := fun _ => 0
  h3gen := fun _ _ => []
  intersects := fun _ _ => true
  clip := fun g _ => g
  rectCellGeom := fun _ _ _ _ => 0
  rectNeighbors := fun _ _ _ => []
  disjoint := fun _ _ => false
  within := fun _ _ => true
  nearestIds := fun _ _ => []
  centroid := fun _ => (0, 0)
  regrJoin := fun g _ => g

/-- A two-cell raw tessellation in which each cell lists the other as its
raw neighbor; both survive clipping under `ops0`. -/
def rawC1 : List (RawCell ℕ) := [⟨5, 0, [7]⟩, ⟨7, 0, [5]⟩]

/- ------------------------------------------------------------------ -/
/- C1: the hexagonal neighbor remap                                   -/
/- ------------------------------------------------------------------ -/

/-- C1 counterexample: on `rawC1` both raw cells survive, yet the second
cell's neighbor list loses the reference to raw id 5 — which survived and
is mapped to new id 0 — because `corr_index_dict.get(n)` is used as a
python truth value and `0` is falsy.  So it is NOT the case that every
surviving raw neighbor id reaches the rewritten list. -/
theorem C1_counterexample :
    ¬ (∀ (i : ℕ) (rc : RawCell ℕ) (c : Cell ℕ),
        (hexSurvivors ops0 0 rawC1).get? i = some rc →
        (hexPipeline ops0 0 rawC1).get? i = some c →
        ∀ n ∈ rc.neighbors, ∀ j,
          idxOf ((hexSurvivors ops0 0 rawC1).map RawCell.id) n = some j →
          j ∈ c.neighbors) := by
  intro h
  have h5 := h 1 ⟨7, 0, [5]⟩ ⟨1, 0, [], none⟩ (by decide) (by decide) 5 (by decide)
    0 (by decide)
  simp at h5

/-- C1 amended: in the hexagonal strategy each surviving cell's rewritten
neighbor list consists exactly of the images under the raw-to-new table of
those raw neighbor ids that survived clipping AND whose new id is nonzero
(the truthy `dict.get` drops new id 0 alongside missing ids); consequently
every id remaining in any neighbor list is a valid post-compaction cell id
of the table. -/
theorem C1_remap_amended {Geom : Type} (ops : GeoOps Geom) (border : Geom)
    (raw : List (RawCell Geom)) (i : ℕ) (c : Cell Geom) (rc : RawCell Geom)
    (hrc : (hexSurvivors ops border raw).get? i = some rc)
    (hc : (hexPipeline ops border raw).get? i = some c) :
    (∀ j, j ∈ c.neighbors ↔
        ∃ n ∈ rc.neighbors,
          idxOf ((hexSurvivors ops border raw).map RawCell.id) n = some j ∧ j ≠ 0) ∧
    ∀ j ∈ c.neighbors, j < (hexPipeline ops border raw).length := by
  have hlen : (hexPipeline ops border raw).length = (hexSurvivors ops border raw).length := by
    unfold hexPipeline
    simp [enumer_length]
  have hcn : c.neighbors =
      remapNeighbors ((hexSurvivors ops border raw).map RawCell.id) rc.neighbors := by
    unfold hexPipeline at hc
    rw [List.get?_map, enumer_get?, hrc] at hc
    simp only [Option.map_some'] at hc
    injection hc with hc
    rw [← hc]
  constructor
  · intro j
    rw [hcn]
    exact mem_remapNeighbors
  · intro j hj
    rw [hcn] at hj
    obtain ⟨n, _, hidx, _⟩ := mem_remapNeighbors.mp hj
    have := findIdxO_lt_length _ hidx
    rw [List.length_map] at this
    rw [hlen]
    exact this

/-- C1 witness: the amended statement evaluated on `rawC1` at row 0: the
first cell keeps its (nonzero-image) neighbor 7 ↦ 1, and 1 is a valid id
of the two-row table. -/
theorem C1_remap_amended_witness :
    (1 ∈ (⟨0, 0, [1], none⟩ : Cell ℕ).neighbors ↔
      ∃ n ∈ (⟨5, 0, [7]⟩ : RawCell ℕ).neighbors,
        idxOf ((hexSurvivors ops0 0 rawC1).map RawCell.id) n = some 1 ∧ 1 ≠ 0) ∧
    (1 : ℕ) < (hexPipeline ops0 0 rawC1).length :=
  ⟨(C1_remap_amended ops0 0 rawC1 0 ⟨0, 0, [1], none⟩ ⟨5, 0, [7]⟩ (by decide) (by decide)).1 1,
   (C1_remap_amended ops0 0 rawC1 0 ⟨0, 0, [1], none⟩ ⟨5, 0, [7]⟩ (by decide) (by decide)).2 1
     (by decide)⟩


/- ------------------------------------------------------------------ -/
/- C5: contiguous zero-based ids in every produced table              -/
/- ------------------------------------------------------------------ -/

/-- The id-contiguity invariant: the `id` column read top to bottom is
exactly `range(N)`. -/
def idsContiguous {Geom : Type} (geo : List (Cell Geom)) : Prop :=
  geo.map Cell.id = List.range geo.length

lemma enumer_map_cell_id {Geom α : Type} (f : ℕ × α → Cell Geom)
    (hf : ∀ p, (f p).id = p.1) :
    ∀ (l : List α) (k : ℕ), ((enumer k l).map f).map Cell.id = List.range' k l.length := by
  intro l
  induction l with
  | nil => intro k; rfl
  | cons a t ih =>
    intro k
    simp only [enumer, List.map_cons, List.length_cons, List.range'_succ, hf, ih]

lemma enumer_ids {Geom α : Type} (f : ℕ × α → Cell Geom)
    (hf : ∀ p, (f p).id = p.1) (l : List α) :
    idsContiguous ((enumer 0 l).map f) := by
  unfold idsContiguous
  rw [List.length_map, enumer_length, enumer_map_cell_id f hf l 0, List.range_eq_range']

lemma rect_table_ids {Geom : Type} (ops : GeoOps Geom) (border : Geom) (nx ny : ℕ) :
    idsContiguous (rectangle_discretization ops border nx ny) := by
  unfold idsContiguous rectangle_discretization
  rw [List.map_map, List.length_map, List.length_range]
  have hcomp : (Cell.id ∘ fun i =>
      ({ id := i
         geom := ops.rectCellGeom border nx ny i
         neighbors := ops.rectNeighbors nx ny i
         center := none } : Cell Geom)) = fun i => i := rfl
  rw [hcomp]
  exact List.map_id _

lemma hex_table_ids {Geom : Type} (ops : GeoOps Geom) (border : Geom)
    (raw : List (RawCell Geom)) : idsContiguous (hexPipeline ops border raw) := by
  unfold hexPipeline
  exact enumer_ids _ (fun p => rfl) _

lemma custom_table_ids {Geom : Type} (ops : GeoOps Geom) (polys : List Geom) :
    idsContiguous (customTable ops polys) := by
  unfold customTable
  exact enumer_ids _ (fun p => rfl) _

lemma node_table_ids {Geom : Type} (nodes : List Geom) :
    idsContiguous (nodeTable nodes) := by
  unfold nodeTable
  exact enumer_ids _ (fun p => rfl) _

lemma centered_ids {Geom : Type} (ops : GeoOps Geom) (geo : List (Cell Geom))
    (h : idsContiguous geo) :
    idsContiguous (geo.map fun c => { c with center := some (ops.centroid c.geom) }) := by
  unfold idsContiguous at h ⊢
  rw [List.map_map, List.length_map]
  have hcomp : (Cell.id ∘ fun c : Cell Geom =>
      { c with center := some (ops.centroid c.geom) }) = Cell.id := rfl
  rw [hcomp]
  exact h

lemma afterTable_ok {Geom : Type} (ops : GeoOps Geom) (st : AggState Geom)
    (geo : List (Cell Geom)) (st' : AggState Geom)
    (h : afterTable ops st geo = .ok st') :
    st'.geoDiscretization =
      some (geo.map fun c => { c with center := some (ops.centroid c.geom) }) := by
  unfold afterTable at h
  cases hev : st.eventsData with
  | none => rw [hev] at h; exact absurd h (by simp)
  | some ev =>
    rw [hev] at h
    simp only [Except.ok.injEq] at h
    subst h
    rfl

lemma afterTable_ids {Geom : Type} (ops : GeoOps Geom) (st : AggState Geom)
    (geo : List (Cell Geom)) (st' : AggState Geom) (out : List (Cell Geom))
    (h : afterTable ops st geo = .ok st') (hg : st'.geoDiscretization = some out)
    (hids : idsContiguous geo) : idsContiguous out := by
  have := afterTable_ok ops st geo st' h
  rw [hg] at this
  injection this with this
  subst this
  exact centered_ids ops geo hids

/-- C5: every geo discretization table stored by a successful
`add_geo_discretization` call — Rectangular (spec-modelled row-major grid),
Hexagonal (after clipping, dissolve and `reset_index`), CustomPolygon and
GraphNode — has an id column that is exactly `range(N)`: unique,
contiguous, zero-based. -/
theorem C5_ids (Geom : Type) (ops : GeoOps Geom) (st : AggState Geom)
    (discrType : String) (hexParam rectX rectY : Option ℕ)
    (customData : Option (List Geom)) (st' : AggState Geom) (geo : List (Cell Geom))
    (h : addGeoDiscretization ops st discrType hexParam rectX rectY customData = .ok st')
    (hg : st'.geoDiscretization = some geo) :
    geo.map Cell.id = List.range geo.length := by
  unfold addGeoDiscretization at h
  cases hb : st.maxBorders with
  | none => rw [hb] at h; exact absurd h (by simp)
  | some border =>
    simp only [hb] at h
    by_cases hR : discrType = "R"
    · rw [if_pos hR] at h
      cases rectX with
      | none => exact absurd h (by simp)
      | some nx =>
        cases rectY with
        | none => exact absurd h (by simp)
        | some ny => exact afterTable_ids _ _ _ _ _ h hg (rect_table_ids ops border nx ny)
    · rw [if_neg hR] at h
      by_cases hH : discrType = "H"
      · rw [if_pos hH] at h
        cases hexParam with
        | none => exact absurd h (by simp)
        | some res =>
          exact afterTable_ids _ _ _ _ _ h hg
            (hex_table_ids ops border (ops.h3gen border res))
      · rw [if_neg hH] at h
        by_cases hC : discrType = "C"
        · rw [if_pos hC] at h
          cases customData with
          | none => exact absurd h (by simp)
          | some polys => exact afterTable_ids _ _ _ _ _ h hg (custom_table_ids ops polys)
        · rw [if_neg hC] at h
          by_cases hG : discrType = "G"
          · rw [if_pos hG] at h
            cases customData with
            | none => exact absurd h (by simp)
            | some nodes =>
              cases hev : st.eventsData with
              | none => rw [hev] at h; exact absurd h (by simp)
              | some ev =>
                rw [hev] at h
                simp only [Except.ok.injEq] at h
                subst h
                have hg2 : some (nodeTable nodes) = some geo := hg
                injection hg2 with hg2
                subst hg2
                exact node_table_ids nodes
          · rw [if_neg hG] at h
            exact absurd h (by simp)

/-- A one-event events table over `Geom := ℕ`. -/
def evT0 : EventsTable ℕ :=
  { rows := [{ geom := some 3, ts := ⟨2022, 1, 0⟩ }], tcols := [], gdiscr := none }

/-- A session with borders and events set. -/
def stEv : AggState ℕ :=
  { maxBorders := some 7, eventsData := some evT0, geoDiscretization := none,
    timeIndexes := [], eventsFeatures := [], geoFeatures := [] }

/-- The geo table a CustomPolygon run on `[5]` produces under `ops0`. -/
def geoW : List (Cell ℕ) := [⟨0, 5, [], some (0, 0)⟩]

/-- The session after that CustomPolygon run. -/
def stAfterW : AggState ℕ :=
  { stEv with
      geoDiscretization := some geoW
      eventsData := some { evT0 with gdiscr := some [some 0] } }

/-- C5 witness: a concrete CustomPolygon discretization of one polygon;
its table ids are `range(1)`. -/
theorem C5_ids_witness : geoW.map Cell.id = List.range geoW.length :=
  C5_ids ℕ ops0 stEv "C" none none none (some [5]) stAfterW geoW rfl rfl

/- ------------------------------------------------------------------ -/
/- C8: GraphNode assignment                                           -/
/- ------------------------------------------------------------------ -/

/-- C8: after the GraphNode pipeline, (a) every event whose original point
is present and lies outside the border region ends with a null `gdiscr`,
whatever its nearest node was; (b) every non-null id in the output column
is the image under `node_idx_dict` of a node id that actually occurs among
the join's assignments — i.e. the output has no orphan ids. -/
theorem C8_graph (Geom : Type) (ops : GeoOps Geom) (border : Geom)
    (nodes : List Geom) (ev : EventsTable Geom) (out : List (Option ℕ))
    (h : (graphAssign ops border nodes ev).gdiscr = some out) :
    (∀ i r p, ev.rows.get? i = some r → r.geom = some p →
        ops.within p border = false → out.get? i = some none) ∧
    (∀ j, some j ∈ out →
        ∃ nid ∈ gaFlat ops nodes ev, idxOf (gaUsed ops nodes ev) nid = some j) := by
  unfold graphAssign at h
  simp only [Option.some.injEq] at h
  subst h
  constructor
  · intro i r p hr hp hw
    have hpre : ((gaMatches ops nodes ev).map fun ms =>
        ms.head?.bind fun nid => idxOf (gaUsed ops nodes ev) nid).get? i =
          some ((fun ms => ms.head?.bind fun nid => idxOf (gaUsed ops nodes ev) nid)
            ((fun r : EvRow Geom =>
              match r.geom with
              | none => []
              | some p => ops.nearestIds p (nodeTable nodes)) r)) := by
      rw [List.get?_map]
      unfold gaMatches
      rw [List.get?_map, hr]
      rfl
    rw [List.get?_map, get?_zip, hr, hpre]
    simp only [Option.map_some']
    rw [hp]
    simp [hw]
  · intro j hj
    obtain ⟨q, hmem, hgq⟩ := List.mem_map.mp hj
    have hq2 : q.2 = some j := by
      cases hrg : q.1.geom with
      | none => rw [hrg] at hgq; exact hgq
      | some p =>
        simp only [hrg] at hgq
        by_cases hw : ops.within p border
        · rw [if_pos hw] at hgq; exact hgq
        · rw [if_neg hw] at hgq; exact absurd hgq (by simp)
    have hxpre : (some j) ∈ (gaMatches ops nodes ev).map fun ms =>
        ms.head?.bind fun nid => idxOf (gaUsed ops nodes ev) nid := by
      rw [← hq2]
      exact (List.of_mem_zip hmem).2
    obtain ⟨ms, hms, hf⟩ := List.mem_map.mp hxpre
    cases hh : ms.head? with
    | none => rw [hh] at hf; exact absurd hf (by simp)
    | some nid =>
      rw [hh] at hf
      simp only [Option.some_bind] at hf
      refine ⟨nid, ?_, hf⟩
      have hnid : nid ∈ ms := by
        cases ms with
        | nil => simp at hh
        | cons a t =>
          simp only [List.head?_cons, Option.some.injEq] at hh
          subst hh
          exact List.mem_cons_self _ _
      exact List.mem_flatten_of_mem hms hnid

/-- Collaborators for the C8 witness: within is `<` on ℕ, the nearest node
of any point is node 1. -/
def opsG : GeoOps ℕ :=
  { ops0 with
      within := fun p b => decide (p < b)
      nearestIds := fun _ _ => [1] }

/-- A single event at coordinate 500, outside the border 300. -/
def evG : EventsTable ℕ :=
  { rows := [{ geom := some 500, ts := ⟨2022, 1, 0⟩ }], tcols := [], gdiscr := none }

/-- C8 witness: the out-of-border event ends with a null id even though it
has a nearest node. -/
theorem C8_graph_witness : ([none] : List (Option ℕ)).get? 0 = some none :=
  (C8_graph ℕ opsG 300 [100, 200] evG [none] rfl).1 0 ⟨some 500, ⟨2022, 1, 0⟩⟩ 500
    rfl rfl rfl

/- ------------------------------------------------------------------ -/
/- C9: add_events_data mutates the caller's DataFrame                 -/
/- ------------------------------------------------------------------ -/

/-- C9: when `add_events_data` receives a plain `pandas.DataFrame`, its
first statement assigns a `geometry` column on the caller's own object, so
the frame the caller still holds differs from what was passed: it now
carries the points built from the longitude and latitude columns. -/
theorem C9_caller_mutated (Geom : Type) (ops : GeoOps Geom) (st : AggState Geom)
    (frame : RawFrame Geom) (feats : List String)
    (h : frame.geometryCol = none) :
    (addEventsData ops st frame feats).1 ≠ frame ∧
    (addEventsData ops st frame feats).1.geometryCol =
      some (List.zipWith ops.pointsFromXY frame.lon frame.lat) := by
  constructor
  · intro heq
    have h2 := congrArg RawFrame.geometryCol heq
    rw [h] at h2
    simp [addEventsData] at h2
  · rfl

/-- A caller frame with one event and no geometry column. -/
def frame0 : RawFrame ℕ := { lat := [1], lon := [2], tsVals := [⟨2022, 1, 0⟩], geometryCol := none }

/-- C9 witness: the concrete one-row frame is visibly mutated. -/
theorem C9_caller_mutated_witness :
    (addEventsData ops0 (initState ℕ) frame0 []).1 ≠ frame0 ∧
    (addEventsData ops0 (initState ℕ) frame0 []).1.geometryCol =
      some (List.zipWith ops0.pointsFromXY frame0.lon frame0.lat) :=
  C9_caller_mutated ℕ ops0 (initState ℕ) frame0 [] rfl

/- ------------------------------------------------------------------ -/
/- C4: the dead hasattr guard of add_max_borders                      -/
/- ------------------------------------------------------------------ -/

/-- C4: calling `add_max_borders(method='rectangle')` (or `'convex'`) on a
fresh aggregator with no events data does NOT raise the documented
`AttributeError('Please inform events data using add_events_data
method.')`: the guard `not(hasattr(self, "events_data"))` is always false
because `__init__` binds the attribute (to `None`), so the call instead
dies on `self.events_data.geometry` with `AttributeError: 'NoneType'
object has no attribute 'geometry'` — before any border geometry is
computed, leaving the state unchanged. -/
theorem C4_dead_guard :
    addMaxBorders ops0 (initState ℕ) none (some "rectangle") =
      .error (.noneAttr, initState ℕ) ∧
    addMaxBorders ops0 (initState ℕ) none (some "convex") =
      .error (.noneAttr, initState ℕ) :=
  ⟨rfl, rfl⟩

/- ------------------------------------------------------------------ -/
/- C3: state preservation on failure                                  -/
/- ------------------------------------------------------------------ -/

lemma applyTimeFrequency_err {ts : List Timestamp} {u : String} {sz : ℤ} {e : PyErr}
    (h : applyTimeFrequency ts u sz = .error e) : e = .unboundLocal := by
  unfold applyTimeFrequency at h
  repeat' split at h
  all_goals try (exfalso; revert h; simp; done)
  simp only [Except.error.injEq] at h
  exact h.symm

lemma calculateSazonality_err {ts : List Timestamp} {u : String} {window : Window}
    {frequency : ℤ} {e : PyErr}
    (h : calculateSazonality ts u window frequency = .error e) :
    e.isExplicitRaise = false := by
  unfold calculateSazonality at h
  cases happ : applyTimeFrequency ts u 1 with
  | error e0 =>
    rw [happ] at h
    simp only [Except.error.injEq] at h
    subst h
    rw [applyTimeFrequency_err happ]
    rfl
  | ok unitary =>
    rw [happ] at h
    cases window with
    | uni w => exact absurd h (by simp)
    | var ws =>
      have h2 : (match mapMO (fun u => variableIdx (cumsum ws) (u.fmod frequency)) unitary with
          | some idxs => Except.ok (idxs.map Int.ofNat)
          | none => (Except.error PyErr.astypeNaN : Except PyErr (List ℤ))) = .error e := h
      cases hmap : mapMO (fun u => variableIdx (cumsum ws) (u.fmod frequency)) unitary with
      | some idxs => rw [hmap] at h2; exact absurd h2 (by simp)
      | none =>
        rw [hmap] at h2
        simp only [Except.error.injEq] at h2
        rw [← h2]
        rfl

lemma afterTable_err {Geom : Type} (ops : GeoOps Geom) (st : AggState Geom)
    (geo : List (Cell Geom)) (e : PyErr) (st' : AggState Geom)
    (h : afterTable ops st geo = .error (e, st')) : e = .noneAttr := by
  unfold afterTable at h
  cases hev : st.eventsData with
  | none =>
    simp only [hev, Except.error.injEq, Prod.mk.injEq] at h
    exact h.1.symm
  | some ev =>
    simp only [hev] at h
    exact absurd h (by simp)

/-- C3 amended: for each fallible Aggregator operation, a failure raised by
one of the code's own explicit `raise` statements (the documented
ValidationError / PreconditionError / UnsupportedTypeError guards) leaves
the session state exactly as it was.  (The claim as stated is refuted by
`C3_counterexample`: a documented precondition failure that surfaces
INSIDE the body — events not set when `add_geo_discretization` reaches its
spatial join — fires only after the geo table was replaced.)
`add_events_data` has no documented fatal error and is total in the model. -/
theorem C3_no_mutation_on_explicit_raise (Geom : Type) (ops : GeoOps Geom)
    (st : AggState Geom) :
    (∀ data method e st', addMaxBorders ops st data method = .error (e, st') →
        e.isExplicitRaise = true → st' = st) ∧
    (∀ sazType window frequency e st',
        addTimeDiscretization st sazType window frequency = .error (e, st') →
        e.isExplicitRaise = true → st' = st) ∧
    (∀ discrType hexParam rectX rectY customData e st',
        addGeoDiscretization ops st discrType hexParam rectX rectY customData =
          .error (e, st') → e.isExplicitRaise = true → st' = st) ∧
    (∀ data e st', addGeoVariable ops st data = .error (e, st') →
        e.isExplicitRaise = true → st' = st) := by
  refine ⟨?_, ?_, ?_, ?_⟩
  · -- add_max_borders: every raise precedes any assignment to self
    intro data method e st' h _
    unfold addMaxBorders at h
    cases data with
    | some d => exact absurd h (by simp)
    | none =>
      by_cases hR : method = some "rectangle"
      · rw [if_pos hR] at h
        have h2 : (match st.eventsData with
            | none => (Except.error (PyErr.noneAttr, st) :
                Except (PyErr × AggState Geom) (AggState Geom))
            | some ev => Except.ok { st with
                maxBorders := some (ops.totalBoundsRect (ev.rows.filterMap EvRow.geom)) }) =
              .error (e, st') := h
        cases hev : st.eventsData with
        | none =>
          rw [hev] at h2
          simp only [Except.error.injEq, Prod.mk.injEq] at h2
          exact h2.2.symm
        | some ev => rw [hev] at h2; exact absurd h2 (by simp)
      · rw [if_neg hR] at h
        by_cases hC : method = some "convex"
        · rw [if_pos hC] at h
          have h2 : (match st.eventsData with
              | none => (Except.error (PyErr.noneAttr, st) :
                  Except (PyErr × AggState Geom) (AggState Geom))
              | some ev => Except.ok { st with
                  maxBorders := some (ops.bufferedHull (ev.rows.filterMap EvRow.geom)) }) =
                .error (e, st') := h
          cases hev : st.eventsData with
          | none =>
            rw [hev] at h2
            simp only [Except.error.injEq, Prod.mk.injEq] at h2
            exact h2.2.symm
          | some ev => rw [hev] at h2; exact absurd h2 (by simp)
        · rw [if_neg hC] at h
          simp only [Except.error.injEq, Prod.mk.injEq] at h
          exact h.2.symm
  · -- add_time_discretization: both guards precede the time_indexes append
    intro sazType window frequency e st' h hdoc
    unfold addTimeDiscretization at h
    cases hev : st.eventsData with
    | none =>
      simp only [hev, Except.error.injEq, Prod.mk.injEq] at h
      exact h.2.symm
    | some ev =>
      simp only [hev] at h
      cases sazType with
      | customDf f => exact absurd h (by simp)
      | unitStr u =>
        cases hva : addTimeValidationErr window frequency with
        | some m =>
          simp only [hva, Except.error.injEq, Prod.mk.injEq] at h
          exact h.2.symm
        | none =>
          simp only [hva] at h
          cases hcs : calculateSazonality (ev.rows.map EvRow.ts) u window frequency with
          | ok col => simp only [hcs] at h; exact absurd h (by simp)
          | error e2 =>
            simp only [hcs, Except.error.injEq, Prod.mk.injEq] at h
            rw [← h.1] at hdoc
            rw [calculateSazonality_err hcs] at hdoc
            exact Bool.noConfusion hdoc
  · -- add_geo_discretization: the guards precede the table replacement;
    -- the post-replacement failure is the incidental noneAttr
    intro discrType hexParam rectX rectY customData e st' h hdoc
    unfold addGeoDiscretization at h
    cases hb : st.maxBorders with
    | none =>
      simp only [hb, Except.error.injEq, Prod.mk.injEq] at h
      exact h.2.symm
    | some border =>
      simp only [hb] at h
      by_cases hR : discrType = "R"
      · rw [if_pos hR] at h
        cases rectX with
        | none =>
          have h2 : (Except.error (PyErr.typeErr, st) :
              Except (PyErr × AggState Geom) (AggState Geom)) = .error (e, st') := h
          simp only [Except.error.injEq, Prod.mk.injEq] at h2
          exact h2.2.symm
        | some nx =>
          cases rectY with
          | none =>
            have h2 : (Except.error (PyErr.typeErr, st) :
                Except (PyErr × AggState Geom) (AggState Geom)) = .error (e, st') := h
            simp only [Except.error.injEq, Prod.mk.injEq] at h2
            exact h2.2.symm
          | some ny =>
            rw [afterTable_err ops st _ e st' h] at hdoc
            exact Bool.noConfusion hdoc
      · rw [if_neg hR] at h
        by_cases hH : discrType = "H"
        · rw [if_pos hH] at h
          cases hexParam with
          | none =>
            have h2 : (Except.error (PyErr.typeErr, st) :
                Except (PyErr × AggState Geom) (AggState Geom)) = .error (e, st') := h
            simp only [Except.error.injEq, Prod.mk.injEq] at h2
            exact h2.2.symm
          | some res =>
            rw [afterTable_err ops st _ e st' h] at hdoc
            exact Bool.noConfusion hdoc
        · rw [if_neg hH] at h
          by_cases hC : discrType = "C"
          · rw [if_pos hC] at h
            cases customData with
            | none =>
              have h2 : (Except.error (PyErr.valueMsg customMsg, st) :
                  Except (PyErr × AggState Geom) (AggState Geom)) = .error (e, st') := h
              simp only [Except.error.injEq, Prod.mk.injEq] at h2
              exact h2.2.symm
            | some polys =>
              rw [afterTable_err ops st _ e st' h] at hdoc
              exact Bool.noConfusion hdoc
          · rw [if_neg hC] at h
            by_cases hG : discrType = "G"
            · rw [if_pos hG] at h
              cases customData with
              | none =>
                have h2 : (Except.error (PyErr.valueMsg graphMsg, st) :
                    Except (PyErr × AggState Geom) (AggState Geom)) = .error (e, st') := h
                simp only [Except.error.injEq, Prod.mk.injEq] at h2
                exact h2.2.symm
              | some nodes =>
                cases hev : st.eventsData with
                | none =>
                  simp only [hev, Except.error.injEq, Prod.mk.injEq] at h
                  rw [← h.1] at hdoc
                  exact Bool.noConfusion hdoc
                | some ev =>
                  simp only [hev] at h
                  exact absurd h (by simp)
            · rw [if_neg hG] at h
              simp only [Except.error.injEq, Prod.mk.injEq] at h
              exact h.2.symm
  · -- add_geo_variable: its only failure is the incidental noneSubscript
    intro data e st' h hdoc
    unfold addGeoVariable at h
    cases hgd : st.geoDiscretization with
    | none =>
      simp only [hgd, Except.error.injEq, Prod.mk.injEq] at h
      rw [← h.1] at hdoc
      exact Bool.noConfusion hdoc
    | some geo =>
      simp only [hgd] at h
      exact absurd h (by simp)

/-- A session with borders set and NO events data. -/
def st0C3 : AggState ℕ :=
  { maxBorders := some 7, eventsData := none, geoDiscretization := none,
    timeIndexes := [], eventsFeatures := [], geoFeatures := [] }

/-- The state observed when `add_geo_discretization('C', ...)` on `st0C3`
dies: the geo table (with centroids already filled) has been replaced. -/
def st1C3 : AggState ℕ :=
  { st0C3 with geoDiscretization := some [⟨0, 5, [], some (0, 0)⟩] }

/-- C3 counterexample: with borders set but no events data — the
documented PreconditionError situation "events not set before geo
discretization" (spec paragraph 7) — `add_geo_discretization` stores the new
geo table and only then fails (on `None.drop` inside the spatial join of
line 428): the failed call leaves the session visibly mutated, refuting
the no-partial-mutation claim as stated. -/
theorem C3_counterexample :
    addGeoDiscretization ops0 st0C3 "C" none none none (some [5]) =
      .error (.noneAttr, st1C3) ∧ st1C3 ≠ st0C3 :=
  ⟨rfl, by decide⟩

/-- C3 witness: applying the amended theorem to the explicit
`raise ValueError('Please inform data or method parameter.')` of
`add_max_borders` called with neither argument on a fresh session. -/
theorem C3_no_mutation_witness : initState ℕ = initState ℕ :=
  (C3_no_mutation_on_explicit_raise ℕ ops0 (initState ℕ)).1 none none
    (PyErr.valueMsg informDataMsg) (initState ℕ) rfl rfl
